import Mathlib

/-!
Shallow embedding of `packages/notificator/notificator.go` (go-gachain).

The notificator tracks, per (ecosystem, user), the last published list of
per-role notification counts, detects changes against freshly fetched
counts, and publishes deltas.  External collaborators are passed in as
function parameters:

* `fetch` models `model.GetNotificationsCount` (the store query); `none`
  models a query error.
* `marshal` models `json.Marshal`; `none` models a serialization error
  (on error Go leaves `rawStats` nil and `string(nil) = ""`).
* the outbound transport `publisher.Write` is modelled by recording every
  call made to it as a `PubCall` value; its return values only feed
  logging in the source, so they do not influence control flow.

Go's `int64` fields are modelled as `Int` (the code only compares and
zeroes them, so no wrap-around arithmetic is involved).  Raw rows are
`map[string]string` in Go with the three relevant fields converted via
`converter.StrToInt64`; we model a row by its three converted integers.
Go map values of type `*[]notificationRecord` are modelled as lists held
in an insertion-ordered association list: `parseRecipientNotification`
only ever stores non-nil pointers, and Go map iteration order (which is
unspecified) is modelled as insertion order.
-/

/-- Mirrors `notificationRecord`: one per-role outstanding count. -/
structure notificationRecord where
  EcosystemID : Int
  RoleID : Int
  RecordsCount : Int
deriving DecidableEq, Repr

/-- A raw row of `model.GetNotificationsCount`, with its three text
fields (`recipient_id`, `role_id`, `cnt`) already converted to integers
as the source does with `converter.StrToInt64`. -/
structure RawRow where
  recipient_id : Int
  role_id : Int
  cnt : Int
deriving DecidableEq, Repr

/-- The `lastMessages.stats` map, keyed by (ecosystem, user).  The
`sync.RWMutex` only serializes access and is not part of the functional
model. -/
def LastMessages : Type := Int → Int → Option (List notificationRecord)

/-- Mirrors `lastMessages.get`: Go returns the zero value `nil` (an empty
slice) together with `ok = false` when the key is absent. -/
def LastMessages.get (lm : LastMessages) (system user : Int) :
    List notificationRecord × Bool :=
  match lm system user with
  | some res => (res, true)
  | none => ([], false)

/-- Mirrors `lastMessages.set`. -/
def LastMessages.set (lm : LastMessages) (system user : Int)
    (newStats : List notificationRecord) : LastMessages :=
  fun s u => if s = system ∧ u = user then some newStats else lm s u

/-- Mirrors `lastMessages.delete`. -/
def LastMessages.delete (lm : LastMessages) (system user : Int) : LastMessages :=
  fun s u => if s = system ∧ u = user then none else lm s u

/-- Insertion-ordered association-list lookup; models indexing into the
Go map `recipientNotifications[recipientID]` (`none` models the missing
key / nil pointer case). -/
def lookupRec (m : List (Int × List notificationRecord)) (k : Int) :
    Option (List notificationRecord) :=
  match m with
  | [] => none
  | p :: rest => if p.1 = k then some p.2 else lookupRec rest k

/-- One step of `parseRecipientNotification`'s map update: Go appends to
the pointed-to slice when the recipient is already known
(`*nr = append(*nr, roleNotifications)`) and otherwise stores a fresh
one-element slice. -/
def insertRecord (m : List (Int × List notificationRecord)) (k : Int)
    (v : notificationRecord) : List (Int × List notificationRecord) :=
  match m with
  | [] => [(k, [v])]
  | p :: rest => if p.1 = k then (p.1, p.2 ++ [v]) :: rest
    else p :: insertRecord rest k v

/-- The `notificationRecord` built from one raw row, as in the body of
`parseRecipientNotification`. -/
def rowRecord (systemID : Int) (r : RawRow) : notificationRecord :=
  { EcosystemID := systemID, RoleID := r.role_id, RecordsCount := r.cnt }

/-- Mirrors `parseRecipientNotification`: fold the rows into the
recipient map, appending each row's record to its recipient's list. -/
def parseRecipientNotification (rows : List RawRow) (systemID : Int) :
    List (Int × List notificationRecord) :=
  rows.foldl
    (fun recipientNotifications r =>
      insertRecord recipientNotifications r.recipient_id (rowRecord systemID r))
    []

/-- Append a list to an optional stored list, creating the entry when
something is appended to an absent one; describes how
`parseRecipientNotification` grows one recipient's entry. -/
def optAppend (o : Option (List notificationRecord))
    (l : List notificationRecord) : Option (List notificationRecord) :=
  match o, l with
  | some x, l => some (x ++ l)
  | none, [] => none
  | none, l => some l

/-- The inner loop of `statsChanged` over `source` for one record `nRec`
of `new`.  It returns the final value of the `newRole` flag together with
whether the loop hit the early `return true` (a record with the same
`RoleID` but a different `RecordsCount`). -/
def scanSource (source : List notificationRecord) (nRec : notificationRecord)
    (newRole : Bool) : Bool × Bool :=
  match source with
  | [] => (newRole, false)
  | sRec :: rest =>
    if sRec.RoleID = nRec.RoleID then
      if sRec.RecordsCount ≠ nRec.RecordsCount then (false, true)
      else scanSource rest nRec false
    else scanSource rest nRec newRole

/-- The outer loop of `statsChanged` over `new`. -/
def checkRecords (source : List notificationRecord)
    (new : List notificationRecord) : Bool :=
  match new with
  | [] => false
  | nRec :: rest =>
    let r := scanSource source nRec true
    if r.2 then true
    else if r.1 then true
    else checkRecords source rest

/-- Mirrors `statsChanged`. -/
def statsChanged (source new : List notificationRecord) : Bool :=
  if source.length ≠ new.length then true
  else if new.length = 0 then false
  else checkRecords source new

/-- The records that `parseRecipientNotification` accumulates for one
recipient `u`: one per row whose `recipient_id` is `u`, in row order. -/
def recipientRecords (rows : List RawRow) (systemID u : Int) :
    List notificationRecord :=
  (rows.filter (fun r => decide (r.recipient_id = u))).map (rowRecord systemID)

/-- One invocation of `publisher.Write(user, payload)` as performed by
`sendUserStats`; `stats` is the record list that was serialized into
`payload`.  The transport's return values only feed logging in the
source, so recording the call captures its entire effect. -/
structure PubCall where
  user : Int
  stats : List notificationRecord
  payload : String
deriving DecidableEq, Repr

/-- The payload string handed to `publisher.Write`: `json.Marshal`'s
output on success; on a marshal error Go leaves `rawStats` nil and
`string(nil)` is the empty string. -/
def payloadOf (marshal : List notificationRecord → Option String)
    (stats : List notificationRecord) : String :=
  match marshal stats with
  | some s => s
  | none => ""

/-- Mirrors `sendUserStats`: serialize and hand to the transport.  Note
that a marshal error is only logged — there is no early return, so
`publisher.Write` is invoked unconditionally (with the empty string as
payload when marshalling failed). -/
def sendUserStats (marshal : List notificationRecord → Option String)
    (user : Int) (stats : List notificationRecord) : PubCall :=
  { user := user, stats := stats, payload := payloadOf marshal stats }

/-- Mirrors `getEcosystemNotificationStats`: query (the `fetch`
parameter models `model.GetNotificationsCount`; `none` is the error
case, which the caller treats as an aborted cycle) then aggregate. -/
def getEcosystemNotificationStats
    (fetch : Int → List Int → Option (List RawRow))
    (ecosystemID : Int) (users : List Int) :
    Option (List (Int × List notificationRecord)) :=
  match fetch ecosystemID users with
  | none => none
  | some result => some (parseRecipientNotification result ecosystemID)

/-- The `newStats` computation in `UpdateNotifications`' loop: the
aggregated list when the map holds a non-nil pointer for the user,
otherwise nil. -/
def freshStats (notificationsStats : List (Int × List notificationRecord))
    (user : Int) : List notificationRecord :=
  match lookupRec notificationsStats user with
  | some ns => ns
  | none => []

/-- The body of `UpdateNotifications`' loop over `users`, threading the
cache and accumulating the transport calls made so far. -/
def updateUserStep (marshal : List notificationRecord → Option String)
    (notificationsStats : List (Int × List notificationRecord))
    (ecosystemID : Int) (acc : LastMessages × List PubCall) (user : Int) :
    LastMessages × List PubCall :=
  let oldStats := (LastMessages.get acc.1 ecosystemID user).1
  let newStats := freshStats notificationsStats user
  if !statsChanged oldStats newStats then acc
  else if newStats.length = 0 then
    (LastMessages.delete acc.1 ecosystemID user,
      acc.2 ++ [sendUserStats marshal user
        (oldStats.map (fun r => { r with RecordsCount := 0 }))])
  else
    (LastMessages.set acc.1 ecosystemID user newStats,
      acc.2 ++ [sendUserStats marshal user newStats])

/-- Mirrors `UpdateNotifications`: fetch and aggregate, aborting on a
fetch error, then run the per-user loop.  The ambient
`lastMessagesStats` global is threaded explicitly as `cache`; the result
pairs the final cache with the transport calls made, in order. -/
def UpdateNotifications (fetch : Int → List Int → Option (List RawRow))
    (marshal : List notificationRecord → Option String)
    (ecosystemID : Int) (users : List Int) (cache : LastMessages) :
    LastMessages × List PubCall :=
  match getEcosystemNotificationStats fetch ecosystemID users with
  | none => (cache, [])
  | some notificationsStats =>
    users.foldl (updateUserStep marshal notificationsStats ecosystemID) (cache, [])

/-- Mirrors `SendNotifications`: run the per-ecosystem update for every
roster entry.  The global `systemUsers` map is passed as a list of
(ecosystem, users) pairs; Go map iteration order is unspecified and is
modelled as list order. -/
def SendNotifications (fetch : Int → List Int → Option (List RawRow))
    (marshal : List notificationRecord → Option String)
    (systemUsers : List (Int × List Int)) (cache : LastMessages) :
    LastMessages × List PubCall :=
  systemUsers.foldl
    (fun acc p =>
      let r := UpdateNotifications fetch marshal p.1 p.2 acc.1
      (r.1, acc.2 ++ r.2))
    (cache, [])

/-- Mirrors `SendNotificationsByRequest`: fetch, aggregate and publish
for every entry of the supplied mapping, skipping an ecosystem whose
fetch fails.  The body never touches `lastMessagesStats`, which is made
explicit by returning the threaded cache unchanged next to the calls.
The source's `notifications == nil` guard is vacuous here because the
aggregator never stores a nil pointer; map iteration is modelled in
insertion order. -/
def SendNotificationsByRequest (fetch : Int → List Int → Option (List RawRow))
    (marshal : List notificationRecord → Option String)
    (systemUsers : List (Int × List Int)) (cache : LastMessages) :
    LastMessages × List PubCall :=
  (cache,
    systemUsers.foldl
      (fun evs p =>
        match getEcosystemNotificationStats fetch p.1 p.2 with
        | none => evs
        | some stats => evs ++ stats.map (fun q => sendUserStats marshal q.1 q.2))
      [])

/-- The transport calls of a cycle that address one given user. -/
def eventsFor (evs : List PubCall) (u : Int) : List PubCall :=
  evs.filter (fun c => decide (c.user = u))

/-- The inner loop equals: `newRole` ends up true iff it started true and
no record of `source` shares the role; the early return fires iff some
record of `source` shares the role with a different count. -/
theorem scanSource_eq (nRec : notificationRecord) :
    ∀ (source : List notificationRecord) (b : Bool),
      scanSource source nRec b =
        (b && decide (∀ s ∈ source, s.RoleID ≠ nRec.RoleID),
         decide (∃ s ∈ source, s.RoleID = nRec.RoleID ∧
            s.RecordsCount ≠ nRec.RecordsCount)) := by
  intro source
  induction source with
  | nil => intro b; simp [scanSource]
  | cons sRec rest ih =>
    intro b
    by_cases hrole : sRec.RoleID = nRec.RoleID
    · by_cases hcnt : sRec.RecordsCount ≠ nRec.RecordsCount
      · simp [scanSource, hrole, hcnt]
      · simp only [scanSource, if_pos hrole, if_neg hcnt, ih]
        simp [hrole, hcnt]
    · simp only [scanSource, if_neg hrole, ih]
      simp [hrole]

/-- The outer loop detects exactly the records of `new` that either have
no role match in `source` or have a role match with a differing count. -/
theorem checkRecords_iff (source : List notificationRecord) :
    ∀ new : List notificationRecord,
      checkRecords source new = true ↔
        ∃ n ∈ new, (∀ s ∈ source, s.RoleID ≠ n.RoleID) ∨
          ∃ s ∈ source, s.RoleID = n.RoleID ∧ s.RecordsCount ≠ n.RecordsCount := by
  intro new
  induction new with
  | nil => simp [checkRecords]
  | cons nRec rest ih =>
    simp only [checkRecords, scanSource_eq]
    by_cases hmm : ∃ s ∈ source, s.RoleID = nRec.RoleID ∧
        s.RecordsCount ≠ nRec.RecordsCount
    · simp [hmm]
    · by_cases hnr : ∀ s ∈ source, s.RoleID ≠ nRec.RoleID
      · simp [hmm]
        exact iff_of_true (Or.inl hnr) (Or.inl hnr)
      · simp [hmm, hnr, ih]

/-- C1: `statsChanged(old, new)` is true iff the lengths differ, or
`new` is non-empty and some record of `new` either matches no record of
`old` by `RoleID` or matches one whose `RecordsCount` differs; it is
false when no record of `new` triggers either condition (in particular
when both lists are empty). -/
theorem statsChanged_spec (old new : List notificationRecord) :
    statsChanged old new = true ↔
      old.length ≠ new.length ∨
        (new ≠ [] ∧ ∃ n ∈ new,
          (∀ s ∈ old, s.RoleID ≠ n.RoleID) ∨
            ∃ s ∈ old, s.RoleID = n.RoleID ∧ s.RecordsCount ≠ n.RecordsCount) := by
  unfold statsChanged
  by_cases hlen : old.length ≠ new.length
  · simp [hlen]
  · by_cases hnil : new.length = 0
    · have : new = [] := List.length_eq_zero.mp hnil
      simp [hlen, hnil, this]
    · have : new ≠ [] := by
        intro h; exact hnil (by simp [h])
      simp [hlen, hnil, this, checkRecords_iff]

/-- C2 counterexample: the identity permutation of a list holding two
records with the same `RoleID` but different `RecordsCount` makes
`statsChanged` report a change — the inner loop of `statsChanged` finds,
for the first record, a same-role entry of `old` with a different count
and returns true. -/
theorem statsChanged_self_counterexample :
    ([({ EcosystemID := 0, RoleID := 1, RecordsCount := 1 } : notificationRecord),
      { EcosystemID := 0, RoleID := 1, RecordsCount := 2 }]).Perm
      [({ EcosystemID := 0, RoleID := 1, RecordsCount := 1 } : notificationRecord),
        { EcosystemID := 0, RoleID := 1, RecordsCount := 2 }] ∧
    statsChanged
      [{ EcosystemID := 0, RoleID := 1, RecordsCount := 1 },
        { EcosystemID := 0, RoleID := 1, RecordsCount := 2 }]
      [{ EcosystemID := 0, RoleID := 1, RecordsCount := 1 },
        { EcosystemID := 0, RoleID := 1, RecordsCount := 2 }] = true :=
  ⟨List.Perm.refl _, by decide⟩

/-- C2 (amended): for permuted lists `statsChanged` returns false
provided no two records of `old` carry the same `RoleID` with different
`RecordsCount` (in particular for lists whose roles are pairwise
distinct, which is what the aggregator produces from role-grouped
rows). -/
theorem statsChanged_perm_false (old new : List notificationRecord)
    (hperm : old.Perm new)
    (hfun : ∀ a ∈ old, ∀ b ∈ old,
      a.RoleID = b.RoleID → a.RecordsCount = b.RecordsCount) :
    statsChanged old new = false := by
  have hlen : old.length = new.length := hperm.length_eq
  rw [← Bool.not_eq_true, statsChanged_spec]
  push_neg
  refine ⟨hlen, fun hne => ?_⟩
  intro n hn
  have hnold : n ∈ old := hperm.symm.mem_iff.mp hn
  constructor
  · exact ⟨n, hnold, rfl⟩
  · exact fun s hs hrole => hfun s hs n hnold hrole

/-- C2 witness: a concrete transposition of a two-role list with
matching counts is reported as unchanged. -/
theorem statsChanged_perm_false_witness :
    ([({ EcosystemID := 0, RoleID := 1, RecordsCount := 5 } : notificationRecord),
      { EcosystemID := 0, RoleID := 2, RecordsCount := 3 }]).Perm
      [({ EcosystemID := 0, RoleID := 2, RecordsCount := 3 } : notificationRecord),
        { EcosystemID := 0, RoleID := 1, RecordsCount := 5 }] ∧
    statsChanged
      [{ EcosystemID := 0, RoleID := 1, RecordsCount := 5 },
        { EcosystemID := 0, RoleID := 2, RecordsCount := 3 }]
      [{ EcosystemID := 0, RoleID := 2, RecordsCount := 3 },
        { EcosystemID := 0, RoleID := 1, RecordsCount := 5 }] = false :=
  ⟨by decide, statsChanged_perm_false _ _ (by decide) (by decide)⟩

theorem optAppend_nil (o : Option (List notificationRecord)) :
    optAppend o [] = o := by
  cases o <;> simp [optAppend]

theorem lookupRec_insertRecord (k u : Int) (v : notificationRecord) :
    ∀ m : List (Int × List notificationRecord),
      lookupRec (insertRecord m k v) u =
        if k = u then some ((lookupRec m u).getD [] ++ [v]) else lookupRec m u := by
  intro m
  induction m with
  | nil =>
    by_cases hku : k = u <;> simp [insertRecord, lookupRec, hku]
  | cons p rest ih =>
    by_cases hpk : p.1 = k
    · by_cases hku : k = u
      · simp [insertRecord, lookupRec, hpk, hku]
      · have hpu : p.1 ≠ u := by rw [hpk]; exact hku
        simp [insertRecord, lookupRec, hpk, hku, hpu]
    · by_cases hpu : p.1 = u
      · have hku : k ≠ u := by
          intro h; exact hpk (hpu.trans h.symm)
        simp [insertRecord, lookupRec, hpk, hpu, hku, Ne.symm hku]
      · simp [insertRecord, lookupRec, hpk, hpu, ih]

theorem lookupRec_parse_fold (systemID u : Int) :
    ∀ (rows : List RawRow) (m : List (Int × List notificationRecord)),
      lookupRec
        (rows.foldl
          (fun acc r => insertRecord acc r.recipient_id (rowRecord systemID r)) m) u =
        optAppend (lookupRec m u) (recipientRecords rows systemID u) := by
  intro rows
  induction rows with
  | nil => intro m; simp [recipientRecords, optAppend_nil]
  | cons r rest ih =>
    intro m
    simp only [List.foldl_cons, ih]
    by_cases hru : r.recipient_id = u
    · rw [lookupRec_insertRecord, if_pos hru]
      have hrr : recipientRecords (r :: rest) systemID u =
          rowRecord systemID r :: recipientRecords rest systemID u := by
        simp [recipientRecords, hru]
      rw [hrr]
      cases h : lookupRec m u <;> simp [optAppend]
    · rw [lookupRec_insertRecord, if_neg hru]
      have hrr : recipientRecords (r :: rest) systemID u =
          recipientRecords rest systemID u := by
        simp [recipientRecords, hru]
      rw [hrr]

/-- The entry that `parseRecipientNotification` produces for a recipient
`u` holds exactly the records of the rows naming `u`, in row order, and
exists exactly when some row names `u`. -/
theorem lookupRec_parse (rows : List RawRow) (systemID u : Int) :
    lookupRec (parseRecipientNotification rows systemID) u =
      optAppend none (recipientRecords rows systemID u) := by
  unfold parseRecipientNotification
  rw [lookupRec_parse_fold]
  rfl

/-- C3 counterexample: two raw rows naming the same recipient and the
same role yield an entry with two records for that role, so the output
is not one record per distinct `roleID`. -/
theorem parse_dup_role_counterexample :
    lookupRec
      (parseRecipientNotification
        [{ recipient_id := 1, role_id := 1, cnt := 2 },
          { recipient_id := 1, role_id := 1, cnt := 3 }] 9) 1 =
      some [{ EcosystemID := 9, RoleID := 1, RecordsCount := 2 },
        { EcosystemID := 9, RoleID := 1, RecordsCount := 3 }] ∧
    ¬ (([{ EcosystemID := 9, RoleID := 1, RecordsCount := 2 },
        { EcosystemID := 9, RoleID := 1, RecordsCount := 3 }] :
          List notificationRecord).map notificationRecord.RoleID).Nodup := by
  constructor
  · decide
  · decide

/-- C3 (amended): when no two rows share both recipient and role, the
aggregator maps each recipient `u` to the list of records built from the
rows naming `u`, in first-encountered order, with pairwise-distinct
roles — hence exactly one record per distinct `roleID` seen for `u`. -/
theorem parseRecipientNotification_grouping (rows : List RawRow) (systemID u : Int)
    (h : rows.Pairwise
      (fun a b => a.recipient_id = b.recipient_id → a.role_id ≠ b.role_id)) :
    lookupRec (parseRecipientNotification rows systemID) u =
      optAppend none (recipientRecords rows systemID u) ∧
    ((recipientRecords rows systemID u).map notificationRecord.RoleID).Nodup := by
  refine ⟨lookupRec_parse rows systemID u, ?_⟩
  have hmap : (recipientRecords rows systemID u).map notificationRecord.RoleID =
      (rows.filter (fun r => decide (r.recipient_id = u))).map
        (fun r => r.role_id) := by
    simp [recipientRecords, rowRecord, Function.comp]
  rw [hmap, List.Nodup, List.pairwise_map]
  have hsub : (rows.filter (fun r => decide (r.recipient_id = u))).Pairwise
      (fun a b => a.recipient_id = b.recipient_id → a.role_id ≠ b.role_id) :=
    h.sublist (List.filter_sublist rows)
  refine hsub.imp_of_mem ?_
  intro a b ha hb hab
  have ha1 : a.recipient_id = u := by
    have := (List.mem_filter.mp ha).2
    exact of_decide_eq_true this
  have hb1 : b.recipient_id = u := by
    have := (List.mem_filter.mp hb).2
    exact of_decide_eq_true this
  exact hab (ha1.trans hb1.symm)

/-- C3 witness: the spec's example rows (recipient 1 roles 1 and 2,
recipient 2 role 1) satisfy the no-duplicate hypothesis, and recipient 1
gets exactly its two records with distinct roles. -/
theorem parseRecipientNotification_grouping_witness :
    ([({ recipient_id := 1, role_id := 1, cnt := 2 } : RawRow),
      { recipient_id := 1, role_id := 2, cnt := 3 },
      { recipient_id := 2, role_id := 1, cnt := 1 }]).Pairwise
      (fun a b => a.recipient_id = b.recipient_id → a.role_id ≠ b.role_id) ∧
    (lookupRec
      (parseRecipientNotification
        [{ recipient_id := 1, role_id := 1, cnt := 2 },
          { recipient_id := 1, role_id := 2, cnt := 3 },
          { recipient_id := 2, role_id := 1, cnt := 1 }] 0) 1 =
      optAppend none
        (recipientRecords
          [{ recipient_id := 1, role_id := 1, cnt := 2 },
            { recipient_id := 1, role_id := 2, cnt := 3 },
            { recipient_id := 2, role_id := 1, cnt := 1 }] 0 1) ∧
    ((recipientRecords
        [{ recipient_id := 1, role_id := 1, cnt := 2 },
          { recipient_id := 1, role_id := 2, cnt := 3 },
          { recipient_id := 2, role_id := 1, cnt := 1 }] 0 1).map
      notificationRecord.RoleID).Nodup) :=
  ⟨by decide, parseRecipientNotification_grouping _ 0 1 (by decide)⟩

/-- C4: evaluating `sendUserStats` at a failing serializer shows that
the user's publish is NOT skipped: the marshal error is only logged
(there is no early return after the `json.Marshal` error check), so
`publisher.Write` is still invoked for that user — with the empty
string as payload, since `string(nil) = ""`. -/
theorem sendUserStats_marshal_failure :
    sendUserStats (fun _ => none) 7
      [{ EcosystemID := 1, RoleID := 2, RecordsCount := 3 }] =
      { user := 7,
        stats := [{ EcosystemID := 1, RoleID := 2, RecordsCount := 3 }],
        payload := "" } := rfl

theorem updateUserStep_no_empty
    (marshal : List notificationRecord → Option String)
    (stats : List (Int × List notificationRecord)) (eco : Int)
    (acc : LastMessages × List PubCall) (user : Int)
    (h : ∀ s u, acc.1 s u ≠ some []) :
    ∀ s u, (updateUserStep marshal stats eco acc user).1 s u ≠ some [] := by
  intro s u
  unfold updateUserStep
  dsimp only
  split
  · exact h s u
  · split
    · simp only [LastMessages.delete]
      split
      · simp
      · exact h s u
    · rename_i hlen
      simp only [LastMessages.set]
      split
      · intro heq
        have : freshStats stats user = [] := by
          injection heq
        exact hlen (by simp [this])
      · exact h s u

theorem foldl_updateUserStep_no_empty
    (marshal : List notificationRecord → Option String)
    (stats : List (Int × List notificationRecord)) (eco : Int) :
    ∀ (users : List Int) (acc : LastMessages × List PubCall),
      (∀ s u, acc.1 s u ≠ some []) →
      ∀ s u,
        (users.foldl (updateUserStep marshal stats eco) acc).1 s u ≠ some [] := by
  intro users
  induction users with
  | nil => intro acc h; exact h
  | cons a rest ih =>
    intro acc h
    exact ih _ (updateUserStep_no_empty marshal stats eco acc a h)

/-- C5: a per-ecosystem update preserves the cache invariant that no
entry stores an empty record list — entries are only ever written with
the non-empty `newStats` and are deleted when the fresh state is
empty. -/
theorem UpdateNotifications_no_empty_entries
    (fetch : Int → List Int → Option (List RawRow))
    (marshal : List notificationRecord → Option String)
    (eco : Int) (users : List Int) (cache : LastMessages)
    (h : ∀ s u, cache s u ≠ some ([] : List notificationRecord)) :
    ∀ s u, (UpdateNotifications fetch marshal eco users cache).1 s u ≠ some [] := by
  unfold UpdateNotifications
  cases hf : getEcosystemNotificationStats fetch eco users with
  | none => exact h
  | some stats =>
    exact foldl_updateUserStep_no_empty marshal stats eco users (cache, []) h

/-- C5 witness: a concrete cycle over the empty cache, with one fetched
row, keeps every entry non-empty. -/
theorem UpdateNotifications_no_empty_entries_witness :
    (∀ s u, (fun _ _ => none : LastMessages) s u ≠ some ([] : List notificationRecord)) ∧
    ∀ s u,
      (UpdateNotifications
        (fun _ _ => some [{ recipient_id := 5, role_id := 1, cnt := 2 }])
        (fun _ => some "x") 3 [5] (fun _ _ => none)).1 s u ≠ some [] :=
  ⟨fun _ _ h => Option.noConfusion h,
    UpdateNotifications_no_empty_entries _ _ 3 [5] _
      (fun _ _ h => Option.noConfusion h)⟩

/-- C8: the one-shot batch cycle neither reads nor mutates the cache:
the cache comes back unchanged for every starting cache, and the
transport calls are identical across arbitrary cache contents. -/
theorem SendNotificationsByRequest_cache_frame
    (fetch : Int → List Int → Option (List RawRow))
    (marshal : List notificationRecord → Option String)
    (systemUsers : List (Int × List Int)) (c c' : LastMessages) :
    (SendNotificationsByRequest fetch marshal systemUsers c).1 = c ∧
    (SendNotificationsByRequest fetch marshal systemUsers c).2 =
      (SendNotificationsByRequest fetch marshal systemUsers c').2 :=
  ⟨rfl, rfl⟩

/-- C9: a fetch error makes `UpdateNotifications` return before any
cache access, so the cache is unchanged and no transport call happens
for that ecosystem; and deleting the failing ecosystem from a
full-roster pass leaves the pass's outcome unchanged, so the other
ecosystems' updates still run exactly as before. -/
theorem UpdateNotifications_fetch_failure
    (fetch : Int → List Int → Option (List RawRow))
    (marshal : List notificationRecord → Option String)
    (a : Int) (ua : List Int) (cache : LastMessages)
    (pre post : List (Int × List Int))
    (hf : fetch a ua = none) :
    UpdateNotifications fetch marshal a ua cache = (cache, []) ∧
    SendNotifications fetch marshal (pre ++ (a, ua) :: post) cache =
      SendNotifications fetch marshal (pre ++ post) cache := by
  have habort : ∀ c : LastMessages,
      UpdateNotifications fetch marshal a ua c = (c, []) := by
    intro c
    unfold UpdateNotifications getEcosystemNotificationStats
    rw [hf]
  refine ⟨habort cache, ?_⟩
  unfold SendNotifications
  rw [List.foldl_append, List.foldl_append, List.foldl_cons]
  congr 1
  simp [habort]

/-- C9 witness: with a fetch that fails exactly for ecosystem 0, the
targeted update of ecosystem 0 is a no-op and a two-ecosystem roster
pass equals the pass without ecosystem 0. -/
theorem UpdateNotifications_fetch_failure_witness :
    ((fun (e : Int) (_ : List Int) =>
        if e = 0 then none
        else some [({ recipient_id := 7, role_id := 1, cnt := 2 } : RawRow)])
      0 [1] = none) ∧
    (UpdateNotifications
        (fun (e : Int) (_ : List Int) =>
          if e = 0 then none
          else some [({ recipient_id := 7, role_id := 1, cnt := 2 } : RawRow)])
        (fun _ => some "p") 0 [1] (fun _ _ => none) =
      ((fun _ _ => none : LastMessages), []) ∧
    SendNotifications
        (fun (e : Int) (_ : List Int) =>
          if e = 0 then none
          else some [({ recipient_id := 7, role_id := 1, cnt := 2 } : RawRow)])
        (fun _ => some "p") ([(2, [3])] ++ (0, [1]) :: [(4, [5])])
        (fun _ _ => none) =
      SendNotifications
        (fun (e : Int) (_ : List Int) =>
          if e = 0 then none
          else some [({ recipient_id := 7, role_id := 1, cnt := 2 } : RawRow)])
        (fun _ => some "p") ([(2, [3])] ++ [(4, [5])]) (fun _ _ => none)) :=
  ⟨rfl, UpdateNotifications_fetch_failure _ _ 0 [1] _ [(2, [3])] [(4, [5])] rfl⟩

theorem eventsFor_append (l1 l2 : List PubCall) (u : Int) :
    eventsFor (l1 ++ l2) u = eventsFor l1 u ++ eventsFor l2 u := by
  simp [eventsFor]

theorem eventsFor_single_ne (c : PubCall) (u : Int) (h : c.user ≠ u) :
    eventsFor [c] u = [] := by
  simp [eventsFor, h]

theorem eventsFor_single_eq (c : PubCall) (u : Int) (h : c.user = u) :
    eventsFor [c] u = [c] := by
  simp [eventsFor, h]

theorem LastMessages.get_congr (c1 c2 : LastMessages) (s u : Int)
    (h : c1 s u = c2 s u) :
    LastMessages.get c1 s u = LastMessages.get c2 s u := by
  unfold LastMessages.get
  rw [h]

/-- A loop iteration for a user other than `u` neither touches the
cache entry of `u` nor produces a transport call addressed to `u`. -/
theorem updateUserStep_other_user
    (marshal : List notificationRecord → Option String)
    (stats : List (Int × List notificationRecord)) (eco : Int)
    (acc : LastMessages × List PubCall) (user u : Int) (h : user ≠ u) :
    (updateUserStep marshal stats eco acc user).1 eco u = acc.1 eco u ∧
    eventsFor (updateUserStep marshal stats eco acc user).2 u =
      eventsFor acc.2 u := by
  unfold updateUserStep
  dsimp only
  split
  · exact ⟨rfl, rfl⟩
  · split
    · refine ⟨?_, ?_⟩
      · simp only [LastMessages.delete]
        simp [Ne.symm h]
      · rw [eventsFor_append, eventsFor_single_ne _ _ h]
        simp
    · refine ⟨?_, ?_⟩
      · simp only [LastMessages.set]
        simp [Ne.symm h]
      · rw [eventsFor_append, eventsFor_single_ne _ _ h]
        simp

/-- A loop iteration for a user whose state is unchanged according to
`statsChanged` leaves the accumulator untouched (`continue`). -/
theorem updateUserStep_same_skip
    (marshal : List notificationRecord → Option String)
    (stats : List (Int × List notificationRecord)) (eco : Int)
    (acc : LastMessages × List PubCall) (u : Int)
    (hu : statsChanged (LastMessages.get acc.1 eco u).1 (freshStats stats u)
      = false) :
    updateUserStep marshal stats eco acc u = acc := by
  unfold updateUserStep
  dsimp only
  rw [hu]
  simp

theorem foldl_unchanged_frame
    (marshal : List notificationRecord → Option String)
    (stats : List (Int × List notificationRecord)) (eco : Int)
    (cache : LastMessages) (u : Int)
    (hu : statsChanged (LastMessages.get cache eco u).1 (freshStats stats u)
      = false) :
    ∀ (users : List Int) (acc : LastMessages × List PubCall),
      acc.1 eco u = cache eco u → eventsFor acc.2 u = [] →
      (users.foldl (updateUserStep marshal stats eco) acc).1 eco u =
          cache eco u ∧
        eventsFor
          ((users.foldl (updateUserStep marshal stats eco) acc)).2 u = [] := by
  intro users
  induction users with
  | nil => intro acc h1 h2; exact ⟨h1, h2⟩
  | cons user rest ih =>
    intro acc h1 h2
    simp only [List.foldl_cons]
    by_cases huser : user = u
    · subst huser
      have hskip : updateUserStep marshal stats eco acc user = acc := by
        refine updateUserStep_same_skip marshal stats eco acc user ?_
        rw [LastMessages.get_congr acc.1 cache eco user h1]
        exact hu
      rw [hskip]
      exact ih acc h1 h2
    · have hframe := updateUserStep_other_user marshal stats eco acc user u huser
      exact ih _ (hframe.1.trans h1) (hframe.2.trans h2)

/-- C6: when the diff engine reports no change for user `u` (cached
state versus freshly aggregated state), the per-ecosystem cycle leaves
`u`'s cache entry exactly as it was — no write, no delete — and makes
no transport call addressed to `u`. -/
theorem UpdateNotifications_unchanged_frame
    (fetch : Int → List Int → Option (List RawRow))
    (marshal : List notificationRecord → Option String)
    (eco : Int) (users : List Int) (cache : LastMessages) (u : Int)
    (rows : List RawRow)
    (hf : fetch eco users = some rows)
    (hu : statsChanged (LastMessages.get cache eco u).1
        (freshStats (parseRecipientNotification rows eco) u) = false) :
    (UpdateNotifications fetch marshal eco users cache).1 eco u =
        cache eco u ∧
      eventsFor (UpdateNotifications fetch marshal eco users cache).2 u = [] := by
  unfold UpdateNotifications getEcosystemNotificationStats
  rw [hf]
  exact foldl_unchanged_frame marshal _ eco cache u hu users (cache, []) rfl rfl

/-- C6 witness: a user with no cached state and no fetched rows is
reported unchanged, and a concrete cycle leaves entry and publish
stream for that user untouched. -/
theorem UpdateNotifications_unchanged_frame_witness :
    ((fun (_ : Int) (_ : List Int) => some ([] : List RawRow)) 3 [5] =
      some []) ∧
    (statsChanged
        (LastMessages.get (fun _ _ => none) 3 5).1
        (freshStats (parseRecipientNotification [] 3) 5) = false) ∧
    ((UpdateNotifications (fun _ _ => some []) (fun _ => some "x") 3 [5]
        (fun _ _ => none)).1 3 5 = (fun _ _ => none : LastMessages) 3 5 ∧
      eventsFor
        (UpdateNotifications (fun _ _ => some []) (fun _ => some "x") 3 [5]
          (fun _ _ => none)).2 5 = []) :=
  ⟨rfl, rfl,
    UpdateNotifications_unchanged_frame _ _ 3 [5] _ 5 [] rfl rfl⟩

/-- The loop iteration that performs the all-clear transition for `u`:
cached state `old` is non-empty, the aggregated map has no entry for
`u`, so the counts of `old` are zeroed, the entry is deleted, and the
zeroed list is handed to the transport. -/
theorem updateUserStep_same_allclear
    (marshal : List notificationRecord → Option String)
    (stats : List (Int × List notificationRecord)) (eco u : Int)
    (old : List notificationRecord) (acc : LastMessages × List PubCall)
    (hacc : acc.1 eco u = some old) (hne : old ≠ [])
    (hfresh : lookupRec stats u = none) :
    updateUserStep marshal stats eco acc u =
      (LastMessages.delete acc.1 eco u,
        acc.2 ++ [sendUserStats marshal u
          (old.map (fun r => { r with RecordsCount := 0 }))]) := by
  have hold : (LastMessages.get acc.1 eco u).1 = old := by
    unfold LastMessages.get
    rw [hacc]
  have hnew : freshStats stats u = [] := by
    unfold freshStats
    rw [hfresh]
  have hch : statsChanged old [] = true := by
    unfold statsChanged
    have hlen : old.length ≠ 0 := by
      simpa using hne
    simp [hlen]
  unfold updateUserStep
  dsimp only
  rw [hold, hnew, hch]
  simp

/-- After the entry for `u` is gone and the aggregated map still has no
row for `u`, the remaining iterations are no-ops for `u`: the diff of
nil against nil is unchanged, and other users never touch `u`. -/
theorem foldl_after_allclear
    (marshal : List notificationRecord → Option String)
    (stats : List (Int × List notificationRecord)) (eco u : Int)
    (hfresh : lookupRec stats u = none) :
    ∀ (users : List Int) (acc : LastMessages × List PubCall),
      acc.1 eco u = none →
      (users.foldl (updateUserStep marshal stats eco) acc).1 eco u = none ∧
        eventsFor (users.foldl (updateUserStep marshal stats eco) acc).2 u =
          eventsFor acc.2 u := by
  intro users
  induction users with
  | nil => intro acc h1; exact ⟨h1, rfl⟩
  | cons user rest ih =>
    intro acc h1
    simp only [List.foldl_cons]
    by_cases huser : user = u
    · subst huser
      have hskip : updateUserStep marshal stats eco acc user = acc := by
        refine updateUserStep_same_skip marshal stats eco acc user ?_
        have hget : (LastMessages.get acc.1 eco user).1 = [] := by
          unfold LastMessages.get
          rw [h1]
        have hnew : freshStats stats user = [] := by
          unfold freshStats
          rw [hfresh]
        rw [hget, hnew]
        rfl
      rw [hskip]
      exact ih acc h1
    · have hframe := updateUserStep_other_user marshal stats eco acc user u huser
      have hrec := ih _ (hframe.1.trans h1)
      exact ⟨hrec.1, hrec.2.trans hframe.2⟩

theorem foldl_allclear
    (marshal : List notificationRecord → Option String)
    (stats : List (Int × List notificationRecord)) (eco u : Int)
    (old : List notificationRecord)
    (hne : old ≠ []) (hfresh : lookupRec stats u = none) :
    ∀ (users : List Int) (acc : LastMessages × List PubCall),
      u ∈ users → acc.1 eco u = some old → eventsFor acc.2 u = [] →
      (users.foldl (updateUserStep marshal stats eco) acc).1 eco u = none ∧
        eventsFor (users.foldl (updateUserStep marshal stats eco) acc).2 u =
          [sendUserStats marshal u
            (old.map (fun r => { r with RecordsCount := 0 }))] := by
  intro users
  induction users with
  | nil => intro acc hmem; exact absurd hmem (List.not_mem_nil u)
  | cons user rest ih =>
    intro acc hmem h1 h2
    simp only [List.foldl_cons]
    by_cases huser : user = u
    · subst huser
      rw [updateUserStep_same_allclear marshal stats eco user old acc h1 hne
        hfresh]
      have hdel : (LastMessages.delete acc.1 eco user) eco user = none := by
        simp [LastMessages.delete]
      have hev : eventsFor
          (acc.2 ++ [sendUserStats marshal user
            (old.map (fun r => { r with RecordsCount := 0 }))]) user =
          [sendUserStats marshal user
            (old.map (fun r => { r with RecordsCount := 0 }))] := by
        rw [eventsFor_append, h2]
        simp [eventsFor, sendUserStats]
      have hrec := foldl_after_allclear marshal stats eco user hfresh rest
        (LastMessages.delete acc.1 eco user,
          acc.2 ++ [sendUserStats marshal user
            (old.map (fun r => { r with RecordsCount := 0 }))]) hdel
      exact ⟨hrec.1, hrec.2.trans hev⟩
    · have hmemr : u ∈ rest := by
        rcases List.mem_cons.mp hmem with h | h
        · exact absurd h.symm huser
        · exact h
      have hframe := updateUserStep_other_user marshal stats eco acc user u huser
      exact ih _ hmemr (hframe.1.trans h1) (hframe.2.trans h2)

/-- C7: when `u` has non-empty cached state `old` and the fresh fetch
yields no rows for `u`, the cycle deletes `u`'s cache entry and makes
exactly one transport call for `u`, carrying `old` with every
`RecordsCount` zeroed and each `RoleID` preserved. -/
theorem UpdateNotifications_allclear
    (fetch : Int → List Int → Option (List RawRow))
    (marshal : List notificationRecord → Option String)
    (eco : Int) (users : List Int) (cache : LastMessages) (u : Int)
    (rows : List RawRow) (old : List notificationRecord)
    (hf : fetch eco users = some rows)
    (hold : cache eco u = some old)
    (hne : old ≠ [])
    (hfresh : lookupRec (parseRecipientNotification rows eco) u = none)
    (hmem : u ∈ users) :
    (UpdateNotifications fetch marshal eco users cache).1 eco u = none ∧
      eventsFor (UpdateNotifications fetch marshal eco users cache).2 u =
        [sendUserStats marshal u
          (old.map (fun r => { r with RecordsCount := 0 }))] := by
  unfold UpdateNotifications getEcosystemNotificationStats
  rw [hf]
  exact foldl_allclear marshal _ eco u old hne hfresh users (cache, []) hmem
    hold rfl

/-- C7 witness: cached state `[{role 2, count 3}]` for user 5 of
ecosystem 1, fresh fetch with no rows: the entry is deleted and the
single publish for user 5 carries `[{role 2, count 0}]`. -/
theorem UpdateNotifications_allclear_witness :
    ((fun (_ : Int) (_ : List Int) => some ([] : List RawRow)) 1 [5] =
      some []) ∧
    (LastMessages.set (fun _ _ => none) 1 5
        [{ EcosystemID := 1, RoleID := 2, RecordsCount := 3 }] 1 5 =
      some [{ EcosystemID := 1, RoleID := 2, RecordsCount := 3 }]) ∧
    ([({ EcosystemID := 1, RoleID := 2, RecordsCount := 3 } :
        notificationRecord)] ≠ []) ∧
    (lookupRec (parseRecipientNotification [] 1) 5 = none) ∧
    ((5 : Int) ∈ [(5 : Int)]) ∧
    ((UpdateNotifications (fun _ _ => some []) (fun _ => some "x") 1 [5]
        (LastMessages.set (fun _ _ => none) 1 5
          [{ EcosystemID := 1, RoleID := 2, RecordsCount := 3 }])).1 1 5 =
        none ∧
      eventsFor
        (UpdateNotifications (fun _ _ => some []) (fun _ => some "x") 1 [5]
          (LastMessages.set (fun _ _ => none) 1 5
            [{ EcosystemID := 1, RoleID := 2, RecordsCount := 3 }])).2 5 =
        [sendUserStats (fun _ => some "x") 5
          ([({ EcosystemID := 1, RoleID := 2, RecordsCount := 3 } :
            notificationRecord)].map (fun r => { r with RecordsCount := 0 }))]) :=
  ⟨rfl, by simp [LastMessages.set], by simp, rfl, by simp,
    UpdateNotifications_allclear _ _ 1 [5] _ 5 [] _ rfl
      (by simp [LastMessages.set]) (by simp) rfl (by simp)⟩

theorem insertRecord_inv (C : Int → Prop)
    (k : Int) (v : notificationRecord) (hk : C k) :
    ∀ m : List (Int × List notificationRecord),
      (∀ q ∈ m, q.2 ≠ [] ∧ C q.1) →
      ∀ q ∈ insertRecord m k v, q.2 ≠ [] ∧ C q.1 := by
  intro m
  induction m with
  | nil =>
    intro _ q hq
    simp only [insertRecord, List.mem_singleton] at hq
    subst hq
    exact ⟨by simp, hk⟩
  | cons p rest ih =>
    intro hm q hq
    by_cases hpk : p.1 = k
    · simp only [insertRecord, if_pos hpk, List.mem_cons] at hq
      rcases hq with hq | hq
      · subst hq
        exact ⟨by simp, hpk ▸ hk⟩
      · exact hm q (List.mem_cons_of_mem p hq)
    · simp only [insertRecord, if_neg hpk, List.mem_cons] at hq
      rcases hq with hq | hq
      · subst hq
        exact hm q (List.mem_cons_self q rest)
      · exact ih (fun q' hq' => hm q' (List.mem_cons_of_mem p hq')) q hq

theorem parse_fold_inv (systemID : Int) (C : Int → Prop) :
    ∀ (rows : List RawRow) (m : List (Int × List notificationRecord)),
      (∀ q ∈ m, q.2 ≠ [] ∧ C q.1) → (∀ r ∈ rows, C r.recipient_id) →
      ∀ q ∈ rows.foldl
        (fun acc r => insertRecord acc r.recipient_id (rowRecord systemID r)) m,
        q.2 ≠ [] ∧ C q.1 := by
  intro rows
  induction rows with
  | nil => intro m hm _ q hq; exact hm q hq
  | cons r rest ih =>
    intro m hm hrows q hq
    simp only [List.foldl_cons] at hq
    exact ih _
      (insertRecord_inv C r.recipient_id (rowRecord systemID r)
        (hrows r (List.mem_cons_self r rest)) m hm)
      (fun r' hr' => hrows r' (List.mem_cons_of_mem r hr')) q hq

/-- Every entry of the aggregated map holds a non-empty record list and
is keyed by the recipient of at least one input row. -/
theorem parse_entries (rows : List RawRow) (systemID : Int) :
    ∀ q ∈ parseRecipientNotification rows systemID,
      q.2 ≠ [] ∧ ∃ r ∈ rows, r.recipient_id = q.1 := by
  unfold parseRecipientNotification
  exact parse_fold_inv systemID (fun u => ∃ r ∈ rows, r.recipient_id = u) rows []
    (by simp) (fun r hr => ⟨r, hr, rfl⟩)

theorem batch_events_mem
    (fetch : Int → List Int → Option (List RawRow))
    (marshal : List notificationRecord → Option String) :
    ∀ (su : List (Int × List Int)) (acc : List PubCall) (c : PubCall),
      c ∈ su.foldl
        (fun evs p =>
          match getEcosystemNotificationStats fetch p.1 p.2 with
          | none => evs
          | some stats => evs ++ stats.map (fun q => sendUserStats marshal q.1 q.2))
        acc →
      c ∈ acc ∨ ∃ p ∈ su, ∃ stats,
        getEcosystemNotificationStats fetch p.1 p.2 = some stats ∧
        ∃ q ∈ stats, c = sendUserStats marshal q.1 q.2 := by
  intro su
  induction su with
  | nil => intro acc c hc; exact Or.inl hc
  | cons p rest ih =>
    intro acc c hc
    simp only [List.foldl_cons] at hc
    cases hg : getEcosystemNotificationStats fetch p.1 p.2 with
    | none =>
      rw [hg] at hc
      rcases ih acc c hc with h | ⟨p', hp', hrest⟩
      · exact Or.inl h
      · exact Or.inr ⟨p', List.mem_cons_of_mem p hp', hrest⟩
    | some stats =>
      rw [hg] at hc
      rcases ih _ c hc with h | ⟨p', hp', hrest⟩
      · rcases List.mem_append.mp h with h | h
        · exact Or.inl h
        · rcases List.mem_map.mp h with ⟨q, hq, hcq⟩
          exact Or.inr ⟨p, List.mem_cons_self p rest,
            stats, hg, q, hq, hcq.symm⟩
      · exact Or.inr ⟨p', List.mem_cons_of_mem p hp', hrest⟩

/-- C10: every transport call of the one-shot batch cycle carries a
non-empty record list (never an empty "all clear" payload) and is
addressed to a user appearing as `recipient_id` in at least one row of
a successful fetch for an ecosystem of the input mapping; a listed user
with no fetched rows therefore receives no publish on this path. -/
theorem SendNotificationsByRequest_only_recipients
    (fetch : Int → List Int → Option (List RawRow))
    (marshal : List notificationRecord → Option String)
    (systemUsers : List (Int × List Int)) (cache : LastMessages) (c : PubCall)
    (hc : c ∈ (SendNotificationsByRequest fetch marshal systemUsers cache).2) :
    c.stats ≠ [] ∧ ∃ p ∈ systemUsers, ∃ rows,
      fetch p.1 p.2 = some rows ∧ ∃ r ∈ rows, r.recipient_id = c.user := by
  unfold SendNotificationsByRequest at hc
  dsimp only at hc
  rcases batch_events_mem fetch marshal systemUsers [] c hc with h | h
  · exact absurd h (List.not_mem_nil c)
  · rcases h with ⟨p, hp, stats, hg, q, hq, hcq⟩
    unfold getEcosystemNotificationStats at hg
    cases hfetch : fetch p.1 p.2 with
    | none => rw [hfetch] at hg; exact absurd hg (by simp)
    | some rows =>
      rw [hfetch] at hg
      have hstats : stats = parseRecipientNotification rows p.1 := by
        injection hg with hg'
        exact hg'.symm
      subst hstats
      have hent := parse_entries rows p.1 q hq
      subst hcq
      refine ⟨hent.1, p, hp, rows, hfetch, ?_⟩
      simpa [sendUserStats] using hent.2

/-- C10 witness: one listed ecosystem whose fetch returns a single row
for recipient 7: the single resulting call goes to user 7 with that
row's non-empty record list. -/
theorem SendNotificationsByRequest_only_recipients_witness :
    (({ user := 7,
        stats := [{ EcosystemID := 1, RoleID := 2, RecordsCount := 3 }],
        payload := "m" } : PubCall) ∈
      (SendNotificationsByRequest
        (fun _ _ => some [{ recipient_id := 7, role_id := 2, cnt := 3 }])
        (fun _ => some "m") [(1, [7])] (fun _ _ => none)).2) ∧
    (({ user := 7,
        stats := [{ EcosystemID := 1, RoleID := 2, RecordsCount := 3 }],
        payload := "m" } : PubCall).stats ≠ [] ∧
      ∃ p ∈ [((1 : Int), [(7 : Int)])], ∃ rows,
        (fun (_ : Int) (_ : List Int) =>
          some [({ recipient_id := 7, role_id := 2, cnt := 3 } : RawRow)])
            p.1 p.2 = some rows ∧
        ∃ r ∈ rows, r.recipient_id =
          ({ user := 7,
             stats := [{ EcosystemID := 1, RoleID := 2, RecordsCount := 3 }],
             payload := "m" } : PubCall).user) :=
  ⟨by decide, SendNotificationsByRequest_only_recipients
    (fun _ _ => some [{ recipient_id := 7, role_id := 2, cnt := 3 }])
    (fun _ => some "m") [(1, [7])] (fun _ _ => none) _ (by decide)⟩
